import Mathlib

/-!
Verification development for the `youtube-translator` repository
(`src/agent.py`, `src/server.py`).

The repository's core is a five-stage pipeline (extract video id → fetch
transcript → translate → summarize → persist), an in-memory job registry
with an asynchronous runner (`process_video` / `start_translation`), and a
file-backed artifact store (`save_result`, `get_result`, `list_results`).

This file gives a shallow embedding of that code.  External collaborators
(the transcript service, the language-model service, `json.loads`,
`uuid.uuid4`, `datetime.now`) are modelled as oracles passed in through an
environment record; everything the repository itself computes is embedded
as executable Lean definitions that mirror the Python line by line.
-/

namespace YT

/-! ## Errors

The error taxonomy of spec §7.  Each constructor corresponds to a distinct
Python exception kind raised by (or through) the pipeline:
`invalidIdentifier` is the `ValueError` raised by `extract_video_id`;
`transcriptUnavailable` a failure from the transcript service;
`transformationService` a failure from the model-service client;
`summaryParse` the `json.JSONDecodeError` raised inside `summarize`;
`missingCredential` the `ValueError` raised when `ANTHROPIC_API_KEY` is
absent.  Oracle failures carry an opaque message string (`str(e)`). -/

inductive Err where
  | invalidIdentifier (url : String)
  | transcriptUnavailable (msg : String)
  | transformationService (msg : String)
  | summaryParse (strippedText : String)
  | missingCredential (msg : String)
deriving DecidableEq

/-- `str(e)` of the Python exception modelled by an `Err` value. -/
def errMsg : Err → String
  | .invalidIdentifier url => "유효한 YouTube URL이 아닙니다: " ++ url
  | .transcriptUnavailable m => m
  | .transformationService m => m
  | .summaryParse t => "Expecting value: " ++ t
  | .missingCredential m => m

/-! ## Identifier extraction (`extract_video_id`, agent.py:22 / server.py:44)

The Python function applies `re.search` with two patterns in order:
  1. `(?:v=|/v/|youtu\.be/)([a-zA-Z0-9_-]{11})`
  2. `^([a-zA-Z0-9_-]{11})$`
and raises `ValueError` if neither matches.  We embed the two patterns
directly: pattern 1 is a leftmost scan for one of the three markers
followed by exactly eleven characters of the id alphabet (the three
markers start with distinct characters, so at any given position at most
one alternative can match and no backtracking between alternatives
arises); pattern 2 matches the whole string — `re.search`'s `$` also
accepts a single trailing newline.  Note the source performs no
whitespace trimming. -/

/-- The character class `[a-zA-Z0-9_-]` of both patterns. -/
def allowedChar (c : Char) : Bool :=
  c.isAlpha || c.isDigit || c = '_' || c = '-'

/-- Try to match `marker` followed by exactly 11 id-alphabet characters at
the head of `l`; return the captured 11 characters. -/
def tryMarker (marker : List Char) (l : List Char) : Option (List Char) :=
  if marker.isPrefixOf l then
    if ((l.drop marker.length).take 11).length = 11
        && ((l.drop marker.length).take 11).all allowedChar then
      some ((l.drop marker.length).take 11)
    else none
  else none

/-- The alternation `(?:v=|/v/|youtu\.be/)` followed by the capture group,
tried at one position; alternatives are tried in regex order. -/
def matchAt (l : List Char) : Option (List Char) :=
  match tryMarker "v=".data l with
  | some tok => some tok
  | none =>
    match tryMarker "/v/".data l with
    | some tok => some tok
    | none => tryMarker "youtu.be/".data l

/-- `re.search` of pattern 1: leftmost position wins. -/
def searchUrlPattern : List Char → Option (List Char)
  | [] => none
  | c :: rest =>
    match matchAt (c :: rest) with
    | some tok => some tok
    | none => searchUrlPattern rest

/-- `re.search` of the anchored pattern `^([a-zA-Z0-9_-]{11})$`: the whole
string is eleven id-alphabet characters, optionally followed by one final
newline (Python's `$` matches before a terminating newline). -/
def matchBareToken (l : List Char) : Option (List Char) :=
  if l.length = 11 && l.all allowedChar then some l
  else
    if l.length = 12 && l.getLast? = some '\n' && (l.take 11).all allowedChar then
      some (l.take 11)
    else none

/-- `extract_video_id` (agent.py:22-32, server.py:44-53). -/
def extract_video_id (url : String) : Except Err String :=
  match searchUrlPattern url.data with
  | some tok => .ok (String.mk tok)
  | none =>
    match matchBareToken url.data with
    | some tok => .ok (String.mk tok)
    | none => .error (.invalidIdentifier url)

/-! ## Transcript source adapter (`extract_transcript`, agent.py:35 / server.py:56)

The Python function calls `api.fetch(video_id, languages=['en','en-US','ko'])`,
and on any exception retries once with `api.fetch(video_id)` (no language
constraint); a failure of the second call propagates.  The fetched fragments
are joined with `" ".join(...)`.  The external service is an oracle
`fetch : Option (List String) → Except Err (List Fragment)` (argument `none`
models the call without a `languages` keyword); alongside the result we
return the list of arguments passed to the oracle, in call order, so the
number and shape of the outbound calls is part of the embedded behaviour. -/

/-- One timed transcript fragment as returned by the transcript service;
only its `text` field is consumed (`item.text`). -/
structure Fragment where
  text : String
deriving DecidableEq

/-- The preferred language-priority list `['en', 'en-US', 'ko']`. -/
def preferredLanguages : List String := ["en", "en-US", "ko"]

/-- `" ".join([item.text for item in transcript])`. -/
def joinFragments (items : List Fragment) : String :=
  String.intercalate " " (items.map Fragment.text)

/-- `extract_transcript` (agent.py:35-46, server.py:56-62), instrumented
with the trace of oracle calls. -/
def extract_transcript (fetch : Option (List String) → Except Err (List Fragment)) :
    Except Err String × List (Option (List String)) :=
  match fetch (some preferredLanguages) with
  | .ok items => (.ok (joinFragments items), [some preferredLanguages])
  | .error _ =>
    match fetch none with
    | .ok items => (.ok (joinFragments items), [some preferredLanguages, none])
    | .error e => (.error e, [some preferredLanguages, none])

/-! ## JSON values

`json.loads` / `json.dump` operate on JSON documents; we model the parsed
documents as a small JSON AST.  (Numbers are modelled as integers; the
documents this program produces carry only strings, arrays and objects, so
no claim depends on numeric fidelity.) -/

inductive Json where
  | null
  | bool (b : Bool)
  | num (n : Int)
  | str (s : String)
  | arr (elems : List Json)
  | obj (fields : List (String × Json))

/-- First binding of key `k` in an object's field list (CPython parsed
dicts never hold duplicate keys, so first = only). -/
def lookupField : List (String × Json) → String → Option Json
  | [], _ => none
  | (k', v) :: rest, k => if k' = k then some v else lookupField rest k

/-- `data.get(k)` on a parsed JSON object.  A lookup on a non-object value
yields `none` (where CPython would raise `AttributeError`; no document this
program writes hits that corner). -/
def Json.getField : Json → String → Option Json
  | .obj fields, k => lookupField fields k
  | _, _ => none

/-- `data.get(k, default)`. -/
def Json.getFieldD (j : Json) (k : String) (d : Json) : Json :=
  (j.getField k).getD d

/-! ## Fence stripping and `summarize` (agent.py:119-124 / server.py:113-115)

`summarize` sends the translated text to the model, then computes
`json_text = re.sub(r'^```json\s*|\s*```$', '', result_text.strip())` and
returns `json.loads(json_text)`.

The substitution's first branch can only match at position 0 and removes a
leading literal <three backticks>`json` plus any following whitespace (the
greedy `\s*`).  The second branch requires three backticks at the very end
of the string (after `.strip()` there is no trailing newline for `$` to
step over), preceded by an optional whitespace run; since backticks are not
whitespace, it removes exactly the trailing three backticks together with
the whitespace run immediately before them, and it cannot match anywhere in
the interior.  The two removals are disjoint passes of one `re.sub`,
equivalent to applying them in sequence. -/

/-- Python `str.strip()`: remove leading and trailing whitespace. -/
def trimChars (l : List Char) : List Char :=
  (((l.dropWhile Char.isWhitespace).reverse.dropWhile Char.isWhitespace)).reverse

/-- Remove a leading fence marker: the branch `^```json\s*`. -/
def stripLeadFence (l : List Char) : List Char :=
  if "```json".data.isPrefixOf l then
    (l.drop 7).dropWhile Char.isWhitespace
  else l

/-- Remove a trailing fence marker: the branch `\s*```$`. -/
def stripTrailFence (l : List Char) : List Char :=
  let r := l.reverse
  if "```".data.isPrefixOf r then
    ((r.drop 3).dropWhile Char.isWhitespace).reverse
  else l

/-- The full `re.sub(r'^```json\s*|\s*```$', '', s.strip())`. -/
def strip_json_fence (s : String) : String :=
  String.mk (stripTrailFence (stripLeadFence (trimChars s.data)))

/-- `summarize` (server.py:87-115, agent.py:80-124): the model call is the
oracle result `modelResponse` (an exception from the client propagates);
`json.loads` is the oracle `parse`, returning `none` exactly on input that
is not valid JSON, in which case the Python raises `json.JSONDecodeError`
(`SummaryParseError` in the spec's taxonomy). -/
def summarize (parse : String → Option Json) (modelResponse : Except Err String) :
    Except Err Json :=
  match modelResponse with
  | .error e => .error e
  | .ok text =>
    match parse (strip_json_fence text) with
    | some j => .ok j
    | none => .error (.summaryParse (strip_json_fence text))

/-! ## Result documents and the artifact store

`process_video` / `save_result` assemble the result dict and write it as
`output/{video_id}.json`; the server additionally renders and writes
`output/{video_id}.html`.  The filesystem is modelled as an association
list keyed by (base name, extension); file contents are either a parsed
JSON document (a file whose text is valid JSON), the rendered HTML page
(whose exact markup is presentation, abstracted by its inputs), or raw
non-JSON text (used to model corrupted / partially written documents). -/

structure ResultDoc where
  video_id : String
  video_url : String
  original_transcript : String
  korean_transcript : String
  summary : Json
  processed_at : String

/-- The result dict assembled at agent.py:133-140 / server.py:379-386. -/
def mkResult (vid original korean : String) (summary : Json) (now : String) : ResultDoc :=
  { video_id := vid
    video_url := "https://www.youtube.com/watch?v=" ++ vid
    original_transcript := original
    korean_transcript := korean
    summary := summary
    processed_at := now }

/-- The JSON document `json.dump` writes for a result. -/
def resultToJson (r : ResultDoc) : Json :=
  .obj [("video_id", .str r.video_id),
        ("video_url", .str r.video_url),
        ("original_transcript", .str r.original_transcript),
        ("korean_transcript", .str r.korean_transcript),
        ("summary", r.summary),
        ("processed_at", .str r.processed_at)]

inductive FileExt where
  | json
  | html
deriving DecidableEq

inductive FileContent where
  | json (j : Json)
  | page (video_id korean : String) (summary : Json) (now : String)
  | raw (s : String)

/-- The store: one entry per file, keyed by base name and extension. -/
def FS : Type := List ((String × FileExt) × FileContent)

/-- `open(path, 'w')` + write: overwrites an existing file of the same
name, creates it otherwise. -/
def FS.insert : FS → String × FileExt → FileContent → FS
  | [], k, v => [(k, v)]
  | (k', v') :: rest, k, v =>
    if k' = k then (k, v) :: rest else (k', v') :: FS.insert rest k v

def FS.lookup : FS → String × FileExt → Option FileContent
  | [], _ => none
  | (k', v) :: rest, k => if k' = k then some v else FS.lookup rest k

/-- `save_result` (agent.py:127-147): writes `output/{video_id}.json`. -/
def save_result (fs : FS) (r : ResultDoc) : FS :=
  FS.insert fs (r.video_id, .json) (.json (resultToJson r))

inductive HttpErr where
  | notFound
  | serverError
deriving DecidableEq

/-- `GET /api/result/{video_id}` (server.py:437-444): 404 when the file
does not exist; otherwise `json.load` the file (which raises — an
unhandled 500 — if its text is not valid JSON). -/
def get_result (fs : FS) (video_id : String) : Except HttpErr Json :=
  match FS.lookup fs (video_id, .json) with
  | none => .error .notFound
  | some (.json j) => .ok j
  | some _ => .error .serverError

/-! ## Listing (`list_results`, server.py:456-470)

`GET /api/list` iterates `OUTPUT_DIR.glob("*.json")` (modelled: the store
entries with extension `.json`, in store order — glob order is
OS-dependent and carries no guarantee), runs `json.load` on each file with
no exception handling (so one unreadable document aborts the whole
request), projects four fields out of each document, and returns the
projections sorted with `sorted(..., key=lambda x: x.get("processed_at",
""), reverse=True)`. -/

structure ListingEntry where
  video_id : Option Json
  one_liner : Json
  tags : Json
  processed_at : Option Json

/-- The projection built for one document at server.py:464-469. -/
def listing_projection (data : Json) : ListingEntry :=
  { video_id := data.getField "video_id"
    one_liner := (data.getFieldD "summary" (.obj [])).getFieldD "one_liner" (.str "")
    tags := (data.getFieldD "summary" (.obj [])).getFieldD "tags" (.arr [])
    processed_at := data.getField "processed_at" }

/-- The sort key `x.get("processed_at", "")`.  Every projection carries the
key; its value is a string for every document this program writes.  (A
document with a missing or non-string `processed_at` would make CPython's
`sorted` raise on comparison; that unreachable-for-our-documents corner is
modelled as the empty string.) -/
def listingSortKey (e : ListingEntry) : String :=
  match e.processed_at with
  | some (.str s) => s
  | _ => ""

/-- CPython string `<`: lexicographic comparison by code point. -/
def lexLt : List Char → List Char → Bool
  | [], [] => false
  | [], _ :: _ => true
  | _ :: _, [] => false
  | a :: as, b :: bs =>
    if a < b then true
    else if a = b then lexLt as bs
    else false

def strLt (a b : String) : Bool := lexLt a.data b.data

/-- `a <= b` on strings, i.e. `not (b < a)` for the total order. -/
def strLe (a b : String) : Bool := !(strLt b a)

/-- Stable insertion for a descending sort: `x` goes before the first
element whose key is not `>=` x's key, so earlier elements win ties. -/
def insertDescBy (key : α → String) (x : α) : List α → List α
  | [] => [x]
  | y :: ys =>
    if strLe (key y) (key x) then x :: y :: ys else y :: insertDescBy key x ys

/-- `sorted(l, key=key, reverse=True)`: the stable descending sort. -/
def sortDescBy (key : α → String) : List α → List α
  | [] => []
  | x :: xs => insertDescBy key x (sortDescBy key xs)

/-- The `for json_file in OUTPUT_DIR.glob("*.json")` loop body: `json.load`
each document (aborting the listing on the first file whose text is not
valid JSON — the error carries that file's base name) and collect the
projections in glob order. -/
def collectListing : FS → Except String (List ListingEntry)
  | [] => .ok []
  | ((name, ext), content) :: rest =>
    if ext = FileExt.json then
      match content with
      | .json data =>
        match collectListing rest with
        | .ok entries => .ok (listing_projection data :: entries)
        | .error m => .error m
      | _ => .error name
    else collectListing rest

/-- `list_results` (server.py:456-470). -/
def list_results (fs : FS) : Except String (List ListingEntry) :=
  match collectListing fs with
  | .ok entries => .ok (sortDescBy listingSortKey entries)
  | .error m => .error m

/-! ## Job records and the async runner

`jobs` is the process-wide dict (server.py:29); a job record is the dict
created at server.py:418-424 and mutated in place by `process_video`.  The
`html_path` key is only ever added on completion, modelled as an `Option`
field that starts out `none`. -/

inductive Status where
  | pending
  | processing
  | completed
  | failed
deriving DecidableEq

def Status.isTerminal : Status → Bool
  | .completed => true
  | .failed => true
  | _ => false

/-- The allowed status transitions (reflexive steps included): pending may
only move to processing, processing only to a terminal status, and a
terminal status never changes. -/
def Status.stepOK : Status → Status → Bool
  | .pending, .pending => true
  | .pending, .processing => true
  | .processing, .processing => true
  | .processing, .completed => true
  | .processing, .failed => true
  | .completed, .completed => true
  | .failed, .failed => true
  | _, _ => false

structure JobRecord where
  status : Status
  video_id : Option String
  step : String
  error : Option String
  result : Option ResultDoc
  html_path : Option String

/-- The record `start_translation` inserts (server.py:418-424). -/
def initialRecord : JobRecord :=
  { status := .pending
    video_id := none
    step := "대기 중..."
    error := none
    result := none
    html_path := none }

/-! ## Environment

The oracles `process_video` and the one-shot pipeline consume:
`os.getenv('ANTHROPIC_API_KEY')`, the transcript service, the two model
calls (translation and summarization, keyed by their input text),
`json.loads`, and `datetime.now().isoformat()`. -/

structure Env where
  api_key : Option String
  fetch : Option (List String) → Except Err (List Fragment)
  translateModel : String → Except Err String
  summarizeModel : String → Except Err String
  parse : String → Option Json
  now : String

/-! ## The one-shot pipeline (agent.py:150-191, body of `main`'s `try`)

Extract → fetch transcript → translate → summarize → save; the first
exception aborts the sequence and propagates to `main`'s top-level
handler unmodified.  `stagesRun` instruments which stages were entered,
in execution order. -/

inductive Stage where
  | extract
  | fetchTranscript
  | translate
  | summarize
  | persist
deriving DecidableEq

def pipelineStages : List Stage :=
  [.extract, .fetchTranscript, .translate, .summarize, .persist]

structure PipelineOutcome where
  outcome : Except Err ResultDoc
  fs : FS
  stagesRun : List Stage

def run_pipeline (env : Env) (url : String) (fs : FS) : PipelineOutcome :=
  match extract_video_id url with
  | .error e => ⟨.error e, fs, [.extract]⟩
  | .ok vid =>
    match (extract_transcript env.fetch).1 with
    | .error e => ⟨.error e, fs, [.extract, .fetchTranscript]⟩
    | .ok original =>
      match env.translateModel original with
      | .error e => ⟨.error e, fs, [.extract, .fetchTranscript, .translate]⟩
      | .ok korean =>
        match summarize env.parse (env.summarizeModel korean) with
        | .error e => ⟨.error e, fs, [.extract, .fetchTranscript, .translate, .summarize]⟩
        | .ok summaryJson =>
          let result := mkResult vid original korean summaryJson env.now
          ⟨.ok result, save_result fs result, pipelineStages⟩

/-! ## The async runner (`process_video`, server.py:348-405)

Each assignment to `jobs[job_id][...]` is one entry of the returned
`trace` (the successive states of the record, in write order), so a poll
of `GET /api/status` observes either the record as created by
`start_translation` or one of the trace entries.  The `except` block
performs two writes: `status = "failed"` then `error = str(e)`. -/

structure RunOutcome where
  trace : List JobRecord
  final : JobRecord
  fs : FS

/-- The two writes of the `except` handler (server.py:403-405). -/
def failSteps (r : JobRecord) (msg : String) : List JobRecord × JobRecord :=
  let r1 := { r with status := Status.failed }
  let r2 := { r1 with error := some msg }
  ([r1, r2], r2)

def process_video (env : Env) (url : String) (fs : FS) (r0 : JobRecord) : RunOutcome :=
  let r1 := { r0 with status := Status.processing }
  match env.api_key with
  | none =>
    let s := failSteps r1 "ANTHROPIC_API_KEY 환경변수가 설정되지 않았습니다."
    ⟨r1 :: s.1, s.2, fs⟩
  | some _ =>
    match extract_video_id url with
    | .error e =>
      let s := failSteps r1 (errMsg e)
      ⟨r1 :: s.1, s.2, fs⟩
    | .ok vid =>
      let r2 := { r1 with video_id := some vid }
      let r3 := { r2 with step := "자막 추출 중..." }
      match (extract_transcript env.fetch).1 with
      | .error e =>
        let s := failSteps r3 (errMsg e)
        ⟨[r1, r2, r3] ++ s.1, s.2, fs⟩
      | .ok original =>
        let r4 := { r3 with step := "번역 중..." }
        match env.translateModel original with
        | .error e =>
          let s := failSteps r4 (errMsg e)
          ⟨[r1, r2, r3, r4] ++ s.1, s.2, fs⟩
        | .ok korean =>
          let r5 := { r4 with step := "요약 중..." }
          match summarize env.parse (env.summarizeModel korean) with
          | .error e =>
            let s := failSteps r5 (errMsg e)
            ⟨[r1, r2, r3, r4, r5] ++ s.1, s.2, fs⟩
          | .ok summaryJson =>
            let r6 := { r5 with step := "저장 중..." }
            let result := mkResult vid original korean summaryJson env.now
            let fs1 := FS.insert fs (vid, FileExt.json)
              (FileContent.json (resultToJson result))
            let fs2 := FS.insert fs1 (vid, FileExt.html)
              (FileContent.page vid korean summaryJson env.now)
            let r7 := { r6 with status := Status.completed }
            let r8 := { r7 with result := some result }
            let r9 := { r8 with html_path := some (vid ++ ".html") }
            ⟨[r1, r2, r3, r4, r5, r6, r7, r8, r9], r9, fs2⟩

/-- The states a poll of `GET /api/status/{job_id}` can observe for one
job over its lifetime: the record as inserted at submission, then each
successive state written by the background task. -/
def observations (env : Env) (url : String) (fs : FS) : List JobRecord :=
  initialRecord :: (process_video env url fs initialRecord).trace

/-- Number of writes that move the record's status from a non-terminal to
a terminal value, counted over consecutive observed states. -/
def terminalWrites : List JobRecord → Nat
  | a :: b :: rest =>
    (if !a.status.isTerminal && b.status.isTerminal then 1 else 0)
      + terminalWrites (b :: rest)
  | _ => 0

/-! ## Submission (`start_translation`, server.py:414-426) -/

/-- The process-wide `jobs` dict, as a map. -/
def Jobs : Type := String → Option JobRecord

def Jobs.insert (jobs : Jobs) (k : String) (r : JobRecord) : Jobs :=
  fun k' => if k' = k then some r else jobs k'

/-- `POST /api/translate`: `job_id = str(uuid.uuid4())[:8]`, then
`jobs[job_id] = {fresh pending record}`.  The textual form of the fresh
UUID4 is the oracle input `uuidStr`. -/
def start_translation (uuidStr : String) (jobs : Jobs) : String × Jobs :=
  let job_id := String.mk (uuidStr.data.take 8)
  (job_id, Jobs.insert jobs job_id initialRecord)

/-- `GET /api/status/{job_id}` (server.py:429-434). -/
def get_status (jobs : Jobs) (job_id : String) : Except HttpErr JobRecord :=
  match jobs job_id with
  | none => .error .notFound
  | some r => .ok r

/-! # Theorems -/

/-! ## Identifier extraction -/

/-- The three URL marker alternatives of pattern 1, in regex order. -/
def markers : List (List Char) := ["v=".data, "/v/".data, "youtu.be/".data]

/-- Spec-side reading of rule (a): the input contains, anywhere, one of
the platform markers immediately followed by an 11-character token of the
id alphabet. -/
def specUrlToken (s : String) : Prop :=
  ∃ pre m tok post, m ∈ markers ∧ s.data = pre ++ m ++ tok ++ post
    ∧ tok.length = 11 ∧ tok.all allowedChar = true

/-- Spec-side reading of rule (b) as the code implements it: the entire
string is an 11-character token of the id alphabet, allowing one final
newline (which `re.search`'s `$` steps over) but no other surrounding
characters. -/
def specBareToken (s : String) : Prop :=
  (s.data.length = 11 ∧ s.data.all allowedChar = true)
  ∨ ∃ tok, s.data = tok ++ ['\n'] ∧ tok.length = 11 ∧ tok.all allowedChar = true

theorem tryMarker_eq_some {m l tok : List Char} (h : tryMarker m l = some tok) :
    ∃ post, l = m ++ tok ++ post ∧ tok.length = 11 ∧ tok.all allowedChar = true := by
  unfold tryMarker at h
  split at h
  · rename_i hpre
    split at h
    · rename_i hcond
      cases h
      have hsplit := List.prefix_iff_eq_append.mp (List.isPrefixOf_iff_prefix.mp hpre)
      simp only [Bool.and_eq_true, decide_eq_true_eq] at hcond
      refine ⟨(l.drop m.length).drop 11, ?_, hcond.1, hcond.2⟩
      conv_lhs => rw [← hsplit]
      rw [List.append_assoc, List.take_append_drop]
    · exact absurd h (by simp)
  · exact absurd h (by simp)

theorem markers_cases {m : List Char} (hm : m ∈ markers) :
    m = "v=".data ∨ m = "/v/".data ∨ m = "youtu.be/".data := by
  simp only [markers, List.mem_cons, List.not_mem_nil, or_false] at hm
  exact hm

theorem tryMarker_of_append (m tok post : List Char)
    (hlen : tok.length = 11) (hall : tok.all allowedChar = true) :
    tryMarker m (m ++ tok ++ post) = some tok := by
  unfold tryMarker
  rw [List.append_assoc, if_pos (List.isPrefixOf_iff_prefix.mpr (List.prefix_append m _))]
  rw [List.drop_left, ← hlen, List.take_left, if_pos (by simp [hlen, hall])]

theorem matchAt_spec {l tok : List Char} (h : matchAt l = some tok) :
    ∃ m post, m ∈ markers ∧ l = m ++ tok ++ post
      ∧ tok.length = 11 ∧ tok.all allowedChar = true := by
  unfold matchAt at h
  rcases h1 : tryMarker "v=".data l with _ | t1
  · rw [h1] at h
    rcases h2 : tryMarker "/v/".data l with _ | t2
    · rw [h2] at h
      obtain ⟨post, hp⟩ := tryMarker_eq_some h
      exact ⟨_, post, by simp [markers], hp.1, hp.2.1, hp.2.2⟩
    · rw [h2] at h
      cases h
      obtain ⟨post, hp⟩ := tryMarker_eq_some h2
      exact ⟨_, post, by simp [markers], hp.1, hp.2.1, hp.2.2⟩
  · rw [h1] at h
    cases h
    obtain ⟨post, hp⟩ := tryMarker_eq_some h1
    exact ⟨_, post, by simp [markers], hp.1, hp.2.1, hp.2.2⟩

theorem matchAt_isSome_of (m tok post : List Char) (hm : m ∈ markers)
    (hlen : tok.length = 11) (hall : tok.all allowedChar = true) :
    (matchAt (m ++ tok ++ post)).isSome = true := by
  have hv := tryMarker_of_append m tok post hlen hall
  rcases markers_cases hm with rfl | rfl | rfl
  · unfold matchAt
    rw [hv]
    rfl
  · have h1 : tryMarker "v=".data ("/v/".data ++ tok ++ post) = none := by
      simp [tryMarker, List.isPrefixOf]
    unfold matchAt
    rw [h1, hv]
    rfl
  · have h1 : tryMarker "v=".data ("youtu.be/".data ++ tok ++ post) = none := by
      simp [tryMarker, List.isPrefixOf]
    have h2 : tryMarker "/v/".data ("youtu.be/".data ++ tok ++ post) = none := by
      simp [tryMarker, List.isPrefixOf]
    unfold matchAt
    rw [h1, h2, hv]
    rfl

theorem searchUrlPattern_isSome_iff (l : List Char) :
    (searchUrlPattern l).isSome = true ↔
      ∃ pre m tok post, m ∈ markers ∧ l = pre ++ m ++ tok ++ post
        ∧ tok.length = 11 ∧ tok.all allowedChar = true := by
  induction l with
  | nil =>
    rw [show searchUrlPattern [] = none from rfl]
    simp only [Option.isSome_none, Bool.false_eq_true, false_iff]
    rintro ⟨pre, m, tok, post, hm, heq, hlen, -⟩
    have hle : ([] : List Char).length = (pre ++ m ++ tok ++ post).length := by rw [heq]
    rcases markers_cases hm with rfl | rfl | rfl <;>
      simp only [List.length_nil, List.length_append, hlen] at hle <;> omega
  | cons c rest ih =>
    constructor
    · intro h
      unfold searchUrlPattern at h
      rcases hm : matchAt (c :: rest) with _ | tok
      · rw [hm] at h
        obtain ⟨pre, m, tok, post, h1, h2, h3, h4⟩ := ih.mp h
        exact ⟨c :: pre, m, tok, post, h1, by simp [h2], h3, h4⟩
      · rw [hm] at h
        obtain ⟨m, post, h1, h2, h3, h4⟩ := matchAt_spec hm
        exact ⟨[], m, tok, post, h1, by simp [h2], h3, h4⟩
    · rintro ⟨pre, m, tok, post, h1, h2, h3, h4⟩
      unfold searchUrlPattern
      rcases hm : matchAt (c :: rest) with _ | tok'
      · show (searchUrlPattern rest).isSome = true
        cases pre with
        | nil =>
          exfalso
          simp only [List.nil_append] at h2
          have hsome := matchAt_isSome_of m tok post h1 h3 h4
          rw [← h2, hm] at hsome
          simp at hsome
        | cons c' pre' =>
          simp only [List.cons_append, List.cons.injEq] at h2
          exact ih.mpr ⟨pre', m, tok, post, h1, h2.2, h3, h4⟩
      · rfl

theorem searchUrlPattern_eq_none_of_all {l : List Char}
    (hl : l.all allowedChar = true) : searchUrlPattern l = none := by
  induction l with
  | nil => rfl
  | cons c rest ih =>
    have hall : (c :: rest).all allowedChar = true := hl
    have hnone : matchAt (c :: rest) = none := by
      rcases hm : matchAt (c :: rest) with _ | tok
      · rfl
      · exfalso
        obtain ⟨m, post, h1, h2, -, -⟩ := matchAt_spec hm
        have hmem : ∀ x ∈ m, allowedChar x = true := by
          intro x hx
          have : x ∈ c :: rest := by
            rw [h2]; exact List.mem_append_left _ (List.mem_append_left _ hx)
          exact List.all_eq_true.mp hall x this
        rcases markers_cases h1 with rfl | rfl | rfl
        · have := hmem '=' (by simp); simp [allowedChar] at this
        · have := hmem '/' (by simp); simp [allowedChar] at this
        · have := hmem '/' (by simp); simp [allowedChar] at this
    unfold searchUrlPattern
    rw [hnone]
    exact ih (by simp only [List.all_cons, Bool.and_eq_true] at hall; exact hall.2)

theorem matchBareToken_isSome_iff (l : List Char) :
    (matchBareToken l).isSome = true ↔
      (l.length = 11 ∧ l.all allowedChar = true)
      ∨ ∃ tok, l = tok ++ ['\n'] ∧ tok.length = 11 ∧ tok.all allowedChar = true := by
  unfold matchBareToken
  split
  · rename_i h
    simp only [Bool.and_eq_true, decide_eq_true_eq] at h
    simp [h]
  · rename_i h1
    split
    · rename_i h2
      simp only [Bool.and_eq_true, decide_eq_true_eq] at h2
      obtain ⟨⟨hlen, hlast⟩, hall⟩ := h2
      simp only [Option.isSome_some, true_iff]
      refine Or.inr ⟨l.take 11, ?_, by simp [hlen], hall⟩
      have hdrop : l.drop 11 = ['\n'] := by
        have hdl : (l.drop 11).length = 1 := by simp [hlen]
        rcases hd : l.drop 11 with _ | ⟨a, tl⟩
        · rw [hd] at hdl; simp at hdl
        · rw [hd] at hdl
          simp only [List.length_cons] at hdl
          have htl : tl = [] := List.length_eq_zero.mp (by omega)
          subst htl
          have : l.getLast? = some a := by
            have : l = l.take 11 ++ [a] := by rw [← hd, List.take_append_drop]
            rw [this, List.getLast?_concat]
          rw [this] at hlast
          cases hlast; rfl
      conv_lhs => rw [← List.take_append_drop 11 l, hdrop]
    · rename_i h2
      simp only [Option.isSome_none, Bool.false_eq_true, false_iff]
      push_neg
      constructor
      · intro hlen hall
        exact h1 (by simp [hlen, hall])
      · rintro tok rfl hlen hall
        refine h2 ?_
        have hl12 : (tok ++ ['\n']).length = 12 := by simp [hlen]
        have htake : (tok ++ ['\n']).take 11 = tok := by
          rw [← hlen, List.take_left]
        simp [hl12, htake, hall, List.getLast?_concat]

theorem matchBareToken_of_token {l : List Char}
    (hlen : l.length = 11) (hall : l.all allowedChar = true) :
    matchBareToken l = some l := by
  unfold matchBareToken
  rw [if_pos (by simp [hlen, hall])]

/-- **C3** (amended: rule (b) applies to the string as given, with no
whitespace trimming — the only surrounding character tolerated is a
single final newline, which `re.search`'s `$` steps over).
For every token of eleven id-alphabet characters: each canonical platform
URL form (`watch?v=`, `youtu.be/`, `/v/`) yields exactly that token, and
the bare token yields itself; and every string containing neither a marker
followed by an 11-character token nor being such a bare token fails with
the `InvalidIdentifierError` (`ValueError`) carrying the input. -/
theorem extract_video_id_spec :
    (∀ t : String, t.length = 11 → t.data.all allowedChar = true →
        extract_video_id ("https://www.youtube.com/watch?v=" ++ t) = .ok t
      ∧ extract_video_id ("https://youtu.be/" ++ t) = .ok t
      ∧ extract_video_id ("https://www.youtube.com/v/" ++ t) = .ok t
      ∧ extract_video_id t = .ok t)
    ∧ (∀ s : String, ¬ specUrlToken s → ¬ specBareToken s →
        extract_video_id s = .error (.invalidIdentifier s)) := by
  constructor
  · intro t hlen hall
    obtain ⟨d⟩ := t
    simp only [String.length] at hlen
    have hcond : 11 ≤ d.length ∧ ∀ x ∈ List.take 11 d, allowedChar x = true :=
      ⟨by omega, fun x hx => List.all_eq_true.mp hall x (List.take_subset _ _ hx)⟩
    have htake : List.take 11 d = d := List.take_of_length_le (by omega)
    refine ⟨?_, ?_, ?_, ?_⟩
    · show extract_video_id ⟨"https://www.youtube.com/watch?v=".data ++ d⟩ = _
      unfold extract_video_id
      have hs : searchUrlPattern ("https://www.youtube.com/watch?v=".data ++ d)
          = some d := by
        simp [searchUrlPattern, matchAt, tryMarker, List.isPrefixOf]
        rw [if_pos hcond, htake]
      rw [hs]
    · show extract_video_id ⟨"https://youtu.be/".data ++ d⟩ = _
      unfold extract_video_id
      have hs : searchUrlPattern ("https://youtu.be/".data ++ d) = some d := by
        simp [searchUrlPattern, matchAt, tryMarker, List.isPrefixOf]
        rw [if_pos hcond, htake]
      rw [hs]
    · show extract_video_id ⟨"https://www.youtube.com/v/".data ++ d⟩ = _
      unfold extract_video_id
      have hs : searchUrlPattern ("https://www.youtube.com/v/".data ++ d) = some d := by
        simp [searchUrlPattern, matchAt, tryMarker, List.isPrefixOf]
        rw [if_pos hcond, htake]
      rw [hs]
    · unfold extract_video_id
      rw [show (String.mk d).data = d from rfl, searchUrlPattern_eq_none_of_all hall,
        matchBareToken_of_token hlen hall]
  · intro s hurl hbare
    unfold extract_video_id
    have h1 : searchUrlPattern s.data = none := by
      rcases h : searchUrlPattern s.data with _ | tok
      · rfl
      · exfalso
        apply hurl
        have : (searchUrlPattern s.data).isSome = true := by simp [h]
        exact (searchUrlPattern_isSome_iff s.data).mp this
    have h2 : matchBareToken s.data = none := by
      rcases h : matchBareToken s.data with _ | tok
      · rfl
      · exfalso
        apply hbare
        have : (matchBareToken s.data).isSome = true := by simp [h]
        exact (matchBareToken_isSome_iff s.data).mp this
    rw [h1, h2]

/-- Witness for `extract_video_id_spec` at the concrete token
`dQw4w9WgXcQ` and a string matching neither rule. -/
theorem extract_video_id_spec_witness :
    extract_video_id "https://www.youtube.com/watch?v=dQw4w9WgXcQ" = .ok "dQw4w9WgXcQ"
    ∧ extract_video_id "https://youtu.be/dQw4w9WgXcQ" = .ok "dQw4w9WgXcQ"
    ∧ extract_video_id "dQw4w9WgXcQ" = .ok "dQw4w9WgXcQ"
    ∧ extract_video_id "hello" = .error (.invalidIdentifier "hello") := by
  have h := extract_video_id_spec
  have ha := h.1 "dQw4w9WgXcQ" (by decide) (by decide)
  refine ⟨ha.1, ha.2.1, ha.2.2.2, ?_⟩
  apply h.2 "hello"
  · rintro ⟨pre, m, tok, post, hm, heq, hlen, -⟩
    have hle : ("hello".data).length = (pre ++ m ++ tok ++ post).length := by rw [heq]
    rw [show ("hello".data).length = 5 from rfl] at hle
    rcases markers_cases hm with rfl | rfl | rfl <;>
      (simp only [List.length_append, hlen, List.length_cons, List.length_nil] at hle;
        omega)
  · rintro (⟨hlen, -⟩ | ⟨tok, heq, hlen, -⟩)
    · simp at hlen
    · have hle : ("hello".data).length = (tok ++ ['\n']).length := by rw [heq]
      rw [show ("hello".data).length = 5 from rfl] at hle
      simp only [List.length_append, hlen, List.length_cons, List.length_nil] at hle
      omega

/-- **C3 counterexample**: the claim's "(after trimming)" clause fails on
the code.  `" dQw4w9WgXcQ"` trims to an 11-character id-alphabet token,
yet `extract_video_id` raises `ValueError` — the source never trims its
input (pattern 2 is anchored at position 0). -/
theorem extract_video_id_trim_counterexample :
    trimChars (" dQw4w9WgXcQ" : String).data = ("dQw4w9WgXcQ" : String).data
    ∧ ("dQw4w9WgXcQ" : String).length = 11
    ∧ ("dQw4w9WgXcQ" : String).data.all allowedChar = true
    ∧ extract_video_id " dQw4w9WgXcQ"
        = .error (.invalidIdentifier " dQw4w9WgXcQ") := by
  refine ⟨by decide, by decide, by decide, rfl⟩

/-! ## Transcript source adapter -/

/-- **C4**: the adapter first calls the service with the preferred
language-priority list; if that call succeeds there is no second call and
the result is the fragments' texts joined by single spaces in source
order; if and only if it fails, exactly one further call is made with no
language constraint, whose fragments are joined the same way on success
and whose error propagates on failure — no further retry. -/
theorem extract_transcript_fallback
    (fetch : Option (List String) → Except Err (List Fragment)) :
    (∀ items, fetch (some preferredLanguages) = .ok items →
      extract_transcript fetch
        = (.ok (String.intercalate " " (items.map Fragment.text)),
           [some preferredLanguages]))
    ∧ (∀ e items, fetch (some preferredLanguages) = .error e → fetch none = .ok items →
      extract_transcript fetch
        = (.ok (String.intercalate " " (items.map Fragment.text)),
           [some preferredLanguages, none]))
    ∧ (∀ e e', fetch (some preferredLanguages) = .error e → fetch none = .error e' →
      extract_transcript fetch = (.error e', [some preferredLanguages, none])) := by
  refine ⟨?_, ?_, ?_⟩
  · intro items h
    unfold extract_transcript
    rw [h]
    rfl
  · intro e items h1 h2
    unfold extract_transcript
    rw [h1, h2]
    rfl
  · intro e e' h1 h2
    unfold extract_transcript
    rw [h1, h2]

/-- Witness for `extract_transcript_fallback`: a service failing on the
constrained call and delivering `["Hello", "world"]` on the fallback. -/
theorem extract_transcript_fallback_witness :
    extract_transcript (fun langs =>
        match langs with
        | some _ => .error (.transcriptUnavailable "no transcript")
        | none => .ok [⟨"Hello"⟩, ⟨"world"⟩])
      = (.ok "Hello world", [some preferredLanguages, none]) :=
  (extract_transcript_fallback _).2.1 (.transcriptUnavailable "no transcript")
    [⟨"Hello"⟩, ⟨"world"⟩] rfl rfl

/-! ## Artifact store -/

theorem FS.lookup_insert (fs : FS) (k : String × FileExt) (v : FileContent) :
    FS.lookup (FS.insert fs k v) k = some v := by
  induction fs with
  | nil => simp [FS.insert, FS.lookup]
  | cons hd tl ih =>
    obtain ⟨k', v'⟩ := hd
    by_cases h : k' = k
    · simp [FS.insert, FS.lookup, h]
    · simp [FS.insert, FS.lookup, h, ih]

theorem resultToJson_inj {r r' : ResultDoc} (h : resultToJson r = resultToJson r') :
    r = r' := by
  cases r; cases r'
  simp only [resultToJson, Json.obj.injEq, List.cons.injEq, Prod.mk.injEq,
    Json.str.injEq, true_and, and_true] at h
  simp_all

/-- **C5**: saving a result and loading its identifier yields the saved
document (and the document determines every field of the Result, since the
encoding is injective); a second save under the same identifier overwrites
— the load returns the second content; loading an identifier with no
stored document fails with the not-found error (HTTP 404). -/
theorem artifact_store_round_trip :
    (∀ (fs : FS) (r : ResultDoc),
        get_result (save_result fs r) r.video_id = .ok (resultToJson r))
    ∧ (∀ r r' : ResultDoc, resultToJson r = resultToJson r' → r = r')
    ∧ (∀ (fs : FS) (r1 r2 : ResultDoc), r1.video_id = r2.video_id →
        get_result (save_result (save_result fs r1) r2) r1.video_id
          = .ok (resultToJson r2))
    ∧ (∀ (fs : FS) (vid : String), FS.lookup fs (vid, .json) = none →
        get_result fs vid = .error .notFound) := by
  refine ⟨?_, @resultToJson_inj, ?_, ?_⟩
  · intro fs r
    unfold get_result save_result
    rw [FS.lookup_insert]
  · intro fs r1 r2 h
    unfold get_result save_result
    rw [h, FS.lookup_insert]
  · intro fs vid h
    unfold get_result
    rw [h]

/-- A sample persisted Result (the concrete scenario of spec §8). -/
def sampleResult : ResultDoc :=
  mkResult "dQw4w9WgXcQ" "Hello world" "안녕하세요" (.obj [("one_liner", .str "인사")])
    "2024-01-01T00:00:00"

/-- The same identifier with different content, for the overwrite case. -/
def sampleResult2 : ResultDoc :=
  mkResult "dQw4w9WgXcQ" "Hello world" "다른 번역" (.obj [("one_liner", .str "수정판")])
    "2024-01-02T00:00:00"

/-- Witness for `artifact_store_round_trip` on an empty store and the two
sample results sharing one identifier. -/
theorem artifact_store_round_trip_witness :
    get_result (save_result [] sampleResult) "dQw4w9WgXcQ"
        = .ok (resultToJson sampleResult)
    ∧ get_result (save_result (save_result [] sampleResult) sampleResult2)
        "dQw4w9WgXcQ" = .ok (resultToJson sampleResult2)
    ∧ get_result [] "dQw4w9WgXcQ" = .error .notFound :=
  ⟨artifact_store_round_trip.1 [] sampleResult,
   artifact_store_round_trip.2.2.1 [] sampleResult sampleResult2 rfl,
   artifact_store_round_trip.2.2.2 [] "dQw4w9WgXcQ" rfl⟩

/-! ## Submission -/

/-- **C10**: submission truncates the fresh UUID's string form to its
first 8 characters as the job id (UUID4 strings are 36 characters, so the
id always has length 8), and unconditionally overwrites the registry slot
under that id with a fresh record `{status: pending, video_id: none,
error: none, result: none}` — whatever record (including a terminal one)
was stored there before — leaving every other key untouched. -/
theorem start_translation_spec (uuidStr : String) (jobs : Jobs)
    (hlen : 8 ≤ uuidStr.length) :
    (start_translation uuidStr jobs).1.length = 8
    ∧ (start_translation uuidStr jobs).2 (start_translation uuidStr jobs).1
        = some initialRecord
    ∧ initialRecord.status = .pending ∧ initialRecord.video_id = none
    ∧ initialRecord.error = none ∧ initialRecord.result = none
    ∧ (∀ k, k ≠ (start_translation uuidStr jobs).1 →
        (start_translation uuidStr jobs).2 k = jobs k) := by
  refine ⟨?_, ?_, rfl, rfl, rfl, rfl, ?_⟩
  · show (uuidStr.data.take 8).length = 8
    rw [List.length_take]
    have hd : uuidStr.data.length = uuidStr.length := rfl
    omega
  · show Jobs.insert jobs _ initialRecord _ = some initialRecord
    unfold Jobs.insert
    rw [if_pos (show (start_translation uuidStr jobs).1
      = ⟨uuidStr.data.take 8⟩ from rfl)]
  · intro k hk
    show Jobs.insert jobs _ initialRecord k = jobs k
    unfold Jobs.insert
    rw [if_neg (show ¬(k = ⟨uuidStr.data.take 8⟩) from fun hcontra => hk hcontra)]

/-- Witness for `start_translation_spec` at a concrete UUID string, over a
registry already holding a completed record under the colliding id. -/
theorem start_translation_spec_witness :
    (start_translation "123e4567-e89b-12d3-a456-426614174000"
      (fun _ => some { initialRecord with status := .completed })).1.length = 8
    ∧ (start_translation "123e4567-e89b-12d3-a456-426614174000"
        (fun _ => some { initialRecord with status := .completed })).2
        (start_translation "123e4567-e89b-12d3-a456-426614174000"
          (fun _ => some { initialRecord with status := .completed })).1
        = some initialRecord := by
  have h := start_translation_spec "123e4567-e89b-12d3-a456-426614174000"
    (fun _ => some { initialRecord with status := .completed }) (by decide)
  exact ⟨h.1, h.2.1⟩

/-! ## Fence stripping -/

theorem head_not_ws {a : Char} {t : List Char}
    (h : (a :: t).dropWhile Char.isWhitespace = a :: t) :
    Char.isWhitespace a = false := by
  by_contra hc
  rw [Bool.not_eq_false] at hc
  rw [List.dropWhile_cons, if_pos hc] at h
  have hlen := congrArg List.length h
  have hle : (List.dropWhile Char.isWhitespace t).length ≤ t.length :=
    (List.dropWhile_sublist Char.isWhitespace).length_le
  simp only [List.length_cons] at hlen
  omega

theorem dropWhile_ws_append (l₁ l₂ : List Char) (hne : l₁ ≠ [])
    (h : l₁.dropWhile Char.isWhitespace = l₁) :
    (l₁ ++ l₂).dropWhile Char.isWhitespace = l₁ ++ l₂ := by
  cases l₁ with
  | nil => exact absurd rfl hne
  | cons a t =>
    rw [List.cons_append, List.dropWhile_cons, if_neg (by rw [head_not_ws h]; simp)]

/-- Stripping is the identity on a payload that carries no surrounding
whitespace, does not itself open with the ` ```json ` marker and does not
itself end in ` ``` `. -/
theorem strip_json_fence_eq_self (p : String)
    (hhead : p.data.dropWhile Char.isWhitespace = p.data)
    (hlast : p.data.reverse.dropWhile Char.isWhitespace = p.data.reverse)
    (hpre : "```json".data.isPrefixOf p.data = false)
    (hsuf : "```".data.isPrefixOf p.data.reverse = false) :
    strip_json_fence p = p := by
  obtain ⟨d⟩ := p
  simp only [String.data] at hhead hlast hpre hsuf
  unfold strip_json_fence trimChars stripLeadFence stripTrailFence
  simp only [String.data]
  rw [hhead, hlast, List.reverse_reverse,
    if_neg (show ¬("```json".data.isPrefixOf d = true) by rw [hpre]; simp),
    if_neg (show ¬("```".data.isPrefixOf d.reverse = true) by rw [hsuf]; simp)]

/-- Stripping removes exactly the wrapping ` ```json\n … \n``` ` fence
around a payload that carries no surrounding whitespace. -/
theorem strip_json_fence_wrap (p : String) (hne : p.data ≠ [])
    (hhead : p.data.dropWhile Char.isWhitespace = p.data)
    (hlast : p.data.reverse.dropWhile Char.isWhitespace = p.data.reverse) :
    strip_json_fence ("```json\n" ++ p ++ "\n```") = p := by
  obtain ⟨d⟩ := p
  simp only [String.data] at hne hhead hlast
  show String.mk (stripTrailFence (stripLeadFence
    (trimChars (("```json\n".data ++ d) ++ "\n```".data)))) = _
  have htrim : trimChars (("```json\n".data ++ d) ++ "\n```".data)
      = ("```json\n".data ++ d) ++ "\n```".data := by
    unfold trimChars
    rw [List.append_assoc,
      dropWhile_ws_append "```json\n".data (d ++ "\n```".data) (by decide) (by decide),
      List.reverse_append, List.reverse_append, List.append_assoc,
      dropWhile_ws_append ("\n```".data.reverse) (d.reverse ++ "```json\n".data.reverse)
        (by decide) (by decide)]
    simp [List.reverse_append, List.reverse_reverse, List.append_assoc]
  rw [htrim]
  have hlead : stripLeadFence (("```json\n".data ++ d) ++ "\n```".data)
      = d ++ "\n```".data := by
    unfold stripLeadFence
    rw [List.append_assoc,
      show ("```json\n".data ++ (d ++ "\n```".data))
        = "```json".data ++ ('\n' :: (d ++ "\n```".data)) from rfl,
      if_pos (List.isPrefixOf_iff_prefix.mpr (List.prefix_append _ _)),
      show List.drop 7 ("```json".data ++ ('\n' :: (d ++ "\n```".data)))
        = '\n' :: (d ++ "\n```".data) from rfl,
      List.dropWhile_cons, if_pos (by decide)]
    exact dropWhile_ws_append d "\n```".data hne hhead
  rw [hlead]
  have htail : stripTrailFence (d ++ "\n```".data) = d := by
    unfold stripTrailFence
    rw [List.reverse_append,
      show (("\n```".data : List Char).reverse ++ d.reverse)
        = "```".data ++ ('\n' :: d.reverse) from rfl,
      if_pos (List.isPrefixOf_iff_prefix.mpr (List.prefix_append _ _)),
      show List.drop 3 ("```".data ++ ('\n' :: d.reverse)) = '\n' :: d.reverse from rfl,
      List.dropWhile_cons, if_pos (by decide), hlast, List.reverse_reverse]
  rw [htail]

/-- **C6** (amended: transparency holds for fenced responses whose
opening marker is ` ```json ` — the only opening marker the source's
regex strips; a bare ` ``` ` opening fence is not removed, see the
counterexample).  For every parser and every payload with no surrounding
whitespace that does not itself start with ` ```json ` or end in ` ``` `,
summarizing the ` ```json `-fenced response and summarizing the bare
payload give identical results. -/
theorem summarize_fence_transparent (parse : String → Option Json) (p : String)
    (hne : p.data ≠ [])
    (hhead : p.data.dropWhile Char.isWhitespace = p.data)
    (hlast : p.data.reverse.dropWhile Char.isWhitespace = p.data.reverse)
    (hpre : "```json".data.isPrefixOf p.data = false)
    (hsuf : "```".data.isPrefixOf p.data.reverse = false) :
    summarize parse (.ok ("```json\n" ++ p ++ "\n```"))
      = summarize parse (.ok p) := by
  have hok : ∀ t : String, summarize parse (.ok t)
      = match parse (strip_json_fence t) with
        | some j => .ok j
        | none => .error (.summaryParse (strip_json_fence t)) := fun _ => rfl
  rw [hok, hok, strip_json_fence_wrap p hne hhead hlast,
    strip_json_fence_eq_self p hhead hlast hpre hsuf]

/-- Witness for `summarize_fence_transparent` at the payload
`{"a": 1}`. -/
theorem summarize_fence_transparent_witness :
    summarize (fun s => some (.str s))
        (.ok ("```json\n" ++ "\x7b\"a\": 1\x7d" ++ "\n```"))
      = summarize (fun s => some (.str s)) (.ok "\x7b\"a\": 1\x7d") :=
  summarize_fence_transparent (fun s => some (.str s)) "\x7b\"a\": 1\x7d"
    (by decide) (by decide) (by decide) (by decide) (by decide)

/-- A stand-in for `json.loads` on the two inputs the counterexample
exercises: it accepts exactly the text `{}` (as the empty object), and
rejects anything else — in particular text still carrying backticks,
which is never valid JSON. -/
def jsonLoadsStub : String → Option Json :=
  fun s => if s = "\x7b\x7d" then some (.obj []) else none

/-- **C6 counterexample**: a *bare* fenced block (opening marker ` ``` `
without `json`) is not transparent.  For the payload `{}` wrapped as
```` ```\n{}\n``` ````, the stripped text still starts with the three
backticks (only the closing fence is removed), so summarizing the fenced
response and the bare payload differ: the fenced one fails to parse. -/
theorem summarize_bare_fence_counterexample :
    strip_json_fence ("```" ++ "\n" ++ "\x7b\x7d" ++ "\n" ++ "```")
        = "```" ++ "\n" ++ "\x7b\x7d"
    ∧ strip_json_fence "\x7b\x7d" = "\x7b\x7d"
    ∧ summarize jsonLoadsStub
        (.ok ("```" ++ "\n" ++ "\x7b\x7d" ++ "\n" ++ "```"))
        = .error (.summaryParse ("```" ++ "\n" ++ "\x7b\x7d"))
    ∧ summarize jsonLoadsStub (.ok "\x7b\x7d") = .ok (.obj [])
    ∧ summarize jsonLoadsStub
        (.ok ("```" ++ "\n" ++ "\x7b\x7d" ++ "\n" ++ "```"))
        ≠ summarize jsonLoadsStub (.ok "\x7b\x7d") := by
  refine ⟨by decide, by decide, rfl, rfl, ?_⟩
  intro h
  rw [show summarize jsonLoadsStub
      (.ok ("```" ++ "\n" ++ "\x7b\x7d" ++ "\n" ++ "```"))
      = .error (.summaryParse ("```" ++ "\n" ++ "\x7b\x7d")) from rfl,
    show summarize jsonLoadsStub (.ok "\x7b\x7d") = .ok (.obj []) from rfl] at h
  exact Except.noConfusion h

/-! ## Listing -/

/-- **C8** (the claim describes the spec's intent; the code lacks the
guard).  `list_results` runs `json.load` inside its loop with no exception
handling, so one stored document whose text is not valid JSON aborts the
whole listing (an unhandled `JSONDecodeError`, HTTP 500) instead of being
skipped: over a store holding one well-formed and one corrupted document
the listing fails, while the same store without the corrupted document
lists fine. -/
theorem list_results_aborts_on_malformed :
    list_results [(("dQw4w9WgXcQ", .json), .json (resultToJson sampleResult)),
                  (("corrupt", .json), .raw "\x7bnot json")]
      = .error "corrupt"
    ∧ list_results [(("dQw4w9WgXcQ", .json), .json (resultToJson sampleResult))]
      = .ok [listing_projection (resultToJson sampleResult)] :=
  ⟨rfl, rfl⟩

theorem lexLt_asymm : ∀ {a b : List Char}, lexLt a b = true → lexLt b a = false
  | [], [] => by simp [lexLt]
  | [], _ :: _ => by intro h; simp [lexLt]
  | _ :: _, [] => by intro h; simp [lexLt] at h
  | a :: as, b :: bs => by
    intro h
    rw [lexLt] at h ⊢
    split at h
    · rename_i hab
      rw [if_neg (lt_asymm hab), if_neg (ne_of_gt hab)]
    · split at h
      · rename_i hnab hab
        subst hab
        rw [if_neg hnab, if_pos rfl]
        exact lexLt_asymm h
      · exact absurd h (by simp)

theorem lexLt_trans : ∀ {a b c : List Char},
    lexLt a b = true → lexLt b c = true → lexLt a c = true
  | [], [], _ => by intro h; simp [lexLt] at h
  | [], _ :: _, [] => by intro _ h; simp [lexLt] at h
  | [], _ :: _, _ :: _ => by intro _ _; simp [lexLt]
  | _ :: _, [], _ => by intro h; simp [lexLt] at h
  | _ :: _, _ :: _, [] => by intro _ h; simp [lexLt] at h
  | a :: as, b :: bs, c :: cs => by
    intro h1 h2
    rw [lexLt] at h1 h2 ⊢
    split at h1
    · rename_i hab
      split at h2
      · rename_i hbc
        rw [if_pos (lt_trans hab hbc)]
      · split at h2
        · rename_i hbc
          subst hbc
          rw [if_pos hab]
        · exact absurd h2 (by simp)
    · split at h1
      · rename_i hnab hab
        subst hab
        split at h2
        · rename_i hbc
          rw [if_pos hbc]
        · split at h2
          · rename_i hbc
            subst hbc
            rw [if_neg hnab, if_pos rfl]
            exact lexLt_trans h1 h2
          · exact absurd h2 (by simp)
      · exact absurd h1 (by simp)

/-- The sort key of the projection of a document this program writes is
exactly the document's creation timestamp. -/
theorem listingSortKey_projection (r : ResultDoc) :
    listingSortKey (listing_projection (resultToJson r)) = r.processed_at := rfl

/-- **C9**: after saving three Results with pairwise distinct identifiers
and creation-timestamp strings T1 < T2 < T3 (CPython compares these ISO
timestamps lexicographically, which `lexLt` models), the listing returns
their projections ordered T3, T2, T1 — sorted by creation timestamp
descending. -/
theorem list_results_sorted_desc (r1 r2 r3 : ResultDoc)
    (h12 : lexLt r1.processed_at.data r2.processed_at.data = true)
    (h23 : lexLt r2.processed_at.data r3.processed_at.data = true)
    (hid12 : r1.video_id ≠ r2.video_id)
    (hid13 : r1.video_id ≠ r3.video_id)
    (hid23 : r2.video_id ≠ r3.video_id) :
    list_results (save_result (save_result (save_result [] r1) r2) r3)
      = .ok [listing_projection (resultToJson r3),
             listing_projection (resultToJson r2),
             listing_projection (resultToJson r1)] := by
  have h13 := lexLt_trans h12 h23
  have hfs : save_result (save_result (save_result [] r1) r2) r3
      = [((r1.video_id, .json), .json (resultToJson r1)),
         ((r2.video_id, .json), .json (resultToJson r2)),
         ((r3.video_id, .json), .json (resultToJson r3))] := by
    simp [save_result, FS.insert, Prod.mk.injEq, hid12, hid13, hid23]
  rw [hfs]
  have hcollect : collectListing
      [((r1.video_id, .json), .json (resultToJson r1)),
       ((r2.video_id, .json), .json (resultToJson r2)),
       ((r3.video_id, .json), .json (resultToJson r3))]
      = .ok [listing_projection (resultToJson r1),
             listing_projection (resultToJson r2),
             listing_projection (resultToJson r3)] := by
    simp [collectListing]
  unfold list_results
  rw [hcollect]
  have hkey : ∀ r : ResultDoc,
      listingSortKey (listing_projection (resultToJson r)) = r.processed_at :=
    listingSortKey_projection
  simp only [sortDescBy, insertDescBy, hkey, strLe, strLt, h12, h23, h13,
    Bool.not_true, if_false, Bool.false_eq_true]

/-- Witness for `list_results_sorted_desc` at three concrete Results
saved in timestamp order. -/
theorem list_results_sorted_desc_witness :
    list_results (save_result (save_result (save_result []
        (mkResult "aaaaaaaaaaa" "o1" "k1" (.obj []) "2024-01-01T00:00:00"))
        (mkResult "bbbbbbbbbbb" "o2" "k2" (.obj []) "2024-01-02T00:00:00"))
        (mkResult "ccccccccccc" "o3" "k3" (.obj []) "2024-01-03T00:00:00"))
      = .ok [listing_projection (resultToJson
               (mkResult "ccccccccccc" "o3" "k3" (.obj []) "2024-01-03T00:00:00")),
             listing_projection (resultToJson
               (mkResult "bbbbbbbbbbb" "o2" "k2" (.obj []) "2024-01-02T00:00:00")),
             listing_projection (resultToJson
               (mkResult "aaaaaaaaaaa" "o1" "k1" (.obj []) "2024-01-01T00:00:00"))] :=
  list_results_sorted_desc _ _ _ (by decide) (by decide)
    (by decide) (by decide) (by decide)

/-! ## Pipeline orchestration -/

/-- **C2**: the stages entered are always a prefix of
Extract → Fetch → Translate → Summarize → Persist (never skipped or
reordered); a failure in any stage stops the run there — later stages do
not appear, the store is unchanged (nothing persisted), and the outcome
carries that stage's error value itself, unwrapped; when every stage
succeeds, all five stages run in order, each consuming the previous
stage's output, and the assembled Result is persisted. -/
theorem pipeline_stage_order (env : Env) (url : String) (fs : FS) :
    ((run_pipeline env url fs).stagesRun <+: pipelineStages)
    ∧ (∀ e, extract_video_id url = .error e →
        run_pipeline env url fs = ⟨.error e, fs, [.extract]⟩)
    ∧ (∀ vid e, extract_video_id url = .ok vid →
        (extract_transcript env.fetch).1 = .error e →
        run_pipeline env url fs = ⟨.error e, fs, [.extract, .fetchTranscript]⟩)
    ∧ (∀ vid original e, extract_video_id url = .ok vid →
        (extract_transcript env.fetch).1 = .ok original →
        env.translateModel original = .error e →
        run_pipeline env url fs
          = ⟨.error e, fs, [.extract, .fetchTranscript, .translate]⟩)
    ∧ (∀ vid original korean e, extract_video_id url = .ok vid →
        (extract_transcript env.fetch).1 = .ok original →
        env.translateModel original = .ok korean →
        summarize env.parse (env.summarizeModel korean) = .error e →
        run_pipeline env url fs
          = ⟨.error e, fs, [.extract, .fetchTranscript, .translate, .summarize]⟩)
    ∧ (∀ vid original korean summaryJson, extract_video_id url = .ok vid →
        (extract_transcript env.fetch).1 = .ok original →
        env.translateModel original = .ok korean →
        summarize env.parse (env.summarizeModel korean) = .ok summaryJson →
        run_pipeline env url fs
          = ⟨.ok (mkResult vid original korean summaryJson env.now),
             save_result fs (mkResult vid original korean summaryJson env.now),
             pipelineStages⟩) := by
  refine ⟨?_, ?_, ?_, ?_, ?_, ?_⟩
  · rcases h1 : extract_video_id url with e | vid
    · have hr : run_pipeline env url fs = ⟨.error e, fs, [.extract]⟩ := by
        unfold run_pipeline; simp only [h1]
      rw [hr]
      show [Stage.extract] <+: pipelineStages
      decide
    · rcases h2 : (extract_transcript env.fetch).1 with e | original
      · have hr : run_pipeline env url fs
            = ⟨.error e, fs, [.extract, .fetchTranscript]⟩ := by
          unfold run_pipeline; simp only [h1, h2]
        rw [hr]
        show [Stage.extract, Stage.fetchTranscript] <+: pipelineStages
        decide
      · rcases h3 : env.translateModel original with e | korean
        · have hr : run_pipeline env url fs
              = ⟨.error e, fs, [.extract, .fetchTranscript, .translate]⟩ := by
            unfold run_pipeline; simp only [h1, h2, h3]
          rw [hr]
          show [Stage.extract, Stage.fetchTranscript, Stage.translate] <+: pipelineStages
          decide
        · rcases h4 : summarize env.parse (env.summarizeModel korean) with e | s
          · have hr : run_pipeline env url fs
                = ⟨.error e, fs,
                   [.extract, .fetchTranscript, .translate, .summarize]⟩ := by
              unfold run_pipeline; simp only [h1, h2, h3, h4]
            rw [hr]
            show [Stage.extract, Stage.fetchTranscript, Stage.translate, Stage.summarize]
              <+: pipelineStages
            decide
          · have hr : run_pipeline env url fs
                = ⟨.ok (mkResult vid original korean s env.now),
                   save_result fs (mkResult vid original korean s env.now),
                   pipelineStages⟩ := by
              unfold run_pipeline; simp only [h1, h2, h3, h4]
            rw [hr]
  · intro e h
    unfold run_pipeline
    simp only [h]
  · intro vid e h1 h2
    unfold run_pipeline
    simp only [h1, h2]
  · intro vid original e h1 h2 h3
    unfold run_pipeline
    simp only [h1, h2, h3]
  · intro vid original korean e h1 h2 h3 h4
    unfold run_pipeline
    simp only [h1, h2, h3, h4]
  · intro vid original korean summaryJson h1 h2 h3 h4
    unfold run_pipeline
    simp only [h1, h2, h3, h4]

/-- Witness for `pipeline_stage_order`: an environment whose model
translation call fails stops the run after the translate stage with that
very error and an unchanged store. -/
theorem pipeline_stage_order_witness :
    run_pipeline
      { api_key := some "k"
        fetch := fun _ => .ok [⟨"Hello"⟩, ⟨"world"⟩]
        translateModel := fun _ => .error (.transformationService "model overloaded")
        summarizeModel := fun _ => .ok "\x7b\x7d"
        parse := fun _ => some (.obj [])
        now := "2024-01-01T00:00:00" }
      "dQw4w9WgXcQ" []
      = ⟨.error (.transformationService "model overloaded"), [],
         [.extract, .fetchTranscript, .translate]⟩ :=
  (pipeline_stage_order _ "dQw4w9WgXcQ" []).2.2.2.1 "dQw4w9WgXcQ" "Hello world"
    (.transformationService "model overloaded") rfl rfl rfl

/-! ## The async runner -/

/-- **C7**: when the model's summarization response strips to text
`json.loads` rejects, `summarize` fails with the parse error
(`json.JSONDecodeError`, the spec's `SummaryParseError`), and the runner's
top-level handler absorbs it: `process_video` returns normally with the
job marked `failed`, the error's text recorded on the record, no Result
attached, and nothing persisted. -/
theorem summarize_parse_failure_fails_job (env : Env) (url : String) (fs : FS)
    (key vid original korean respText : String)
    (hkey : env.api_key = some key)
    (hex : extract_video_id url = .ok vid)
    (htr : (extract_transcript env.fetch).1 = .ok original)
    (htl : env.translateModel original = .ok korean)
    (hsm : env.summarizeModel korean = .ok respText)
    (hparse : env.parse (strip_json_fence respText) = none) :
    summarize env.parse (env.summarizeModel korean)
        = .error (.summaryParse (strip_json_fence respText))
    ∧ (process_video env url fs initialRecord).final.status = .failed
    ∧ (process_video env url fs initialRecord).final.error
        = some (errMsg (.summaryParse (strip_json_fence respText)))
    ∧ (process_video env url fs initialRecord).final.result = none
    ∧ (process_video env url fs initialRecord).fs = fs := by
  have hsum : summarize env.parse (env.summarizeModel korean)
      = .error (.summaryParse (strip_json_fence respText)) := by
    unfold summarize
    simp only [hsm, hparse]
  refine ⟨hsum, ?_, ?_, ?_, ?_⟩ <;>
    (unfold process_video; simp only [hkey, hex, htr, htl, hsum, failSteps]; try rfl)

/-- Witness for `summarize_parse_failure_fails_job`: a model answering
`not json` to the summarization request. -/
theorem summarize_parse_failure_fails_job_witness :
    (process_video
      { api_key := some "k"
        fetch := fun _ => .ok [⟨"Hello"⟩, ⟨"world"⟩]
        translateModel := fun _ => .ok "안녕하세요"
        summarizeModel := fun _ => .ok "not json"
        parse := fun _ => none
        now := "2024-01-01T00:00:00" }
      "dQw4w9WgXcQ" [] initialRecord).final.status = .failed
    ∧ (process_video
      { api_key := some "k"
        fetch := fun _ => .ok [⟨"Hello"⟩, ⟨"world"⟩]
        translateModel := fun _ => .ok "안녕하세요"
        summarizeModel := fun _ => .ok "not json"
        parse := fun _ => none
        now := "2024-01-01T00:00:00" }
      "dQw4w9WgXcQ" [] initialRecord).final.error
      = some (errMsg (.summaryParse (strip_json_fence "not json"))) := by
  have h := summarize_parse_failure_fails_job
    { api_key := some "k"
      fetch := fun _ => .ok [⟨"Hello"⟩, ⟨"world"⟩]
      translateModel := fun _ => .ok "안녕하세요"
      summarizeModel := fun _ => .ok "not json"
      parse := fun _ => none
      now := "2024-01-01T00:00:00" }
    "dQw4w9WgXcQ" [] "k" "dQw4w9WgXcQ" "Hello world" "안녕하세요" "not json"
    rfl rfl rfl rfl rfl rfl
  exact ⟨h.2.1, h.2.2.1⟩

/-- **C1**: over every possible run of a job (any oracle outcomes), the
sequence of record states a poll can observe starts at the `pending`
record inserted at submission; consecutive observed states only ever step
`pending → processing → {completed | failed}` or stay put (so the status
is monotonic and no write leaves a terminal state); exactly one write
moves the status into a terminal state; and the state after the
background execution finishes is either `completed` with a Result
attached and no error, or `failed` with an error message attached and no
Result — never both. -/
theorem job_status_monotonic (env : Env) (url : String) (fs : FS) :
    (observations env url fs).head? = some initialRecord
    ∧ initialRecord.status = .pending
    ∧ List.Chain' (fun a b => Status.stepOK a.status b.status = true)
        (observations env url fs)
    ∧ terminalWrites (observations env url fs) = 1
    ∧ ((process_video env url fs initialRecord).final.status = .completed
        ∧ (process_video env url fs initialRecord).final.result ≠ none
        ∧ (process_video env url fs initialRecord).final.error = none
      ∨ (process_video env url fs initialRecord).final.status = .failed
        ∧ (process_video env url fs initialRecord).final.error ≠ none
        ∧ (process_video env url fs initialRecord).final.result = none) := by
  refine ⟨rfl, rfl, ?_⟩
  unfold observations process_video
  rcases hkey : env.api_key with _ | key
  · simp only [failSteps]
    exact ⟨by simp [Status.stepOK, initialRecord],
      rfl, Or.inr ⟨trivial, by simp, rfl⟩⟩
  · simp only []
    rcases hex : extract_video_id url with e | vid
    · simp only [failSteps]
      exact ⟨by simp [Status.stepOK, initialRecord],
        rfl, Or.inr ⟨trivial, by simp, rfl⟩⟩
    · simp only []
      rcases htr : (extract_transcript env.fetch).1 with e | original
      · simp only [failSteps]
        exact ⟨by simp [Status.stepOK, initialRecord],
          rfl, Or.inr ⟨trivial, by simp, rfl⟩⟩
      · simp only []
        rcases htl : env.translateModel original with e | korean
        · simp only [failSteps]
          exact ⟨by simp [Status.stepOK, initialRecord],
            rfl, Or.inr ⟨trivial, by simp, rfl⟩⟩
        · simp only []
          rcases hsm : summarize env.parse (env.summarizeModel korean) with e | s
          · simp only [failSteps]
            exact ⟨by simp [Status.stepOK, initialRecord],
              rfl, Or.inr ⟨trivial, by simp, rfl⟩⟩
          · simp only []
            exact ⟨by simp [Status.stepOK, initialRecord],
              rfl, Or.inl ⟨trivial, by simp, rfl⟩⟩

end YT
